import Mathlib

/-!
# Bootloader callback hooks of the Olimexino-STM32F3 demo (`Boot/hooks.c`)

A shallow embedding of the hook functions of `hooks.c` and theorems about them.

* Machine integers (`blt_int8u`, `blt_int32u`, `blt_addr`) are natural numbers; none of
  the embedded hooks performs arithmetic that can wrap.
* A byte buffer passed by pointer (`blt_int8u *`) is a function from the index to the
  byte stored there, so `key[0]` is `key 0`.
* Code that `hooks.c` calls but that lives in other files (FatFs, the LED driver, the
  GPIO low-level driver) and constants of headers that are not part of the sources
  are parameters of the embedded functions.
* Every call into such a collaborator is appended to a call log kept in the state, so
  that statements about which calls are made, and how often, can be expressed.
-/

namespace Hooks

/-! ## Basic types -/

/-- Modelled from the spec: the boolean type `blt_bool` of the bootloader core with its
two values `BLT_FALSE` and `BLT_TRUE`; the header that declares them is not part of the
sources, the spec speaks of the results `false` and `true`. -/
inductive blt_bool where
  | BLT_FALSE
  | BLT_TRUE
  deriving DecidableEq, Repr

export blt_bool (BLT_FALSE BLT_TRUE)

/-- A byte buffer handed over by pointer: index to byte. -/
abbrev Buffer := Nat → Nat

/-! ## Info table hook -/

/-- The local `struct firmwareInfoTable` of `InfoTableCheckHook`. -/
structure firmwareInfoTable where
  tableId : Nat
  productId : Nat
  firmwareVersion : Nat
  deriving DecidableEq, Repr

/-- The C function `InfoTableCheckHook(newInfoTable, currentInfoTable)`. The two addresses are cast to
pointers to `struct firmwareInfoTable`; `mem a` is the info table stored at address
`a`. -/
def InfoTableCheckHook (mem : Nat → firmwareInfoTable)
    (newInfoTable currentInfoTable : Nat) : blt_bool :=
  let result := BLT_FALSE
  let newInfoTablePtr := mem newInfoTable
  let currentInfoTablePtr := mem currentInfoTable
  if currentInfoTablePtr.tableId = newInfoTablePtr.tableId then
    if currentInfoTablePtr.productId = newInfoTablePtr.productId then
      BLT_TRUE
    else result
  else result

/-! ## Seed/key hooks -/

/-- The C function `XcpGetSeedHook(resource, seed)`: returns the seed length and the seed buffer after
the call. `XCP_RES_PGM` is the resource constant of the XCP header, which is not part of
the sources. -/
def XcpGetSeedHook (XCP_RES_PGM : Nat) (resource : Nat) (seed : Buffer) : Nat × Buffer :=
  let seed := if (resource &&& XCP_RES_PGM) ≠ 0 then Function.update seed 0 0x55 else seed
  (1, seed)

/-- The C function `XcpVerifyKeyHook(resource, key, len)`: 1 if the key is correct, 0 otherwise. -/
def XcpVerifyKeyHook (XCP_RES_PGM : Nat) (resource : Nat) (key : Buffer) (len : Nat) : Nat :=
  let _len := len
  if resource = XCP_RES_PGM ∧ key 0 = 0x55 - 1 then 1 else 0

/-- A request of the XCP master that reaches the seed/key hooks: `GET_SEED` calls
`XcpGetSeedHook`, `UNLOCK` calls `XcpVerifyKeyHook`. -/
inductive XcpRequest where
  | getSeed (resource : Nat)
  | unlock (resource : Nat) (key : Buffer) (len : Nat)

/-- One request served by the hooks: the value the hook returns and the seed buffer
afterwards. The seed buffer is the only storage either hook writes. -/
def xcpServe (XCP_RES_PGM : Nat) (seed : Buffer) : XcpRequest → Nat × Buffer
  | .getSeed resource => XcpGetSeedHook XCP_RES_PGM resource seed
  | .unlock resource key len => (XcpVerifyKeyHook XCP_RES_PGM resource key len, seed)

/-- The seed buffer after a sequence of requests was served in order. -/
def xcpRun (XCP_RES_PGM : Nat) (seed : Buffer) : List XcpRequest → Buffer
  | [] => seed
  | r :: rs => xcpRun XCP_RES_PGM (xcpServe XCP_RES_PGM seed r).2 rs

/-- The result of an `UNLOCK` request that is served after the requests `history`. -/
def xcpUnlockAfter (XCP_RES_PGM : Nat) (seed : Buffer) (history : List XcpRequest)
    (resource : Nat) (key : Buffer) (len : Nat) : Nat :=
  (xcpServe XCP_RES_PGM (xcpRun XCP_RES_PGM seed history) (.unlock resource key len)).1

/-! ## CPU hook -/

/-- The board support code `CpuUserProgramStartHook` calls; the GPIO low-level driver
and the LED driver are not part of the sources. `H` is the state of the hardware and of
the LED driver. -/
structure BoardDriver (H : Type) where
  /-- The value of `LL_GPIO_IsInputPinSet(GPIOA, LL_GPIO_PIN_0)`: 0 when pin PA0 reads
  low. Reading the input does not change the state. -/
  LL_GPIO_IsInputPinSet_GPIOA_PIN_0 : H → Nat
  /-- The effect of `LedBlinkExit()`. -/
  LedBlinkExit : H → H

/-- The state-changing calls of the CPU hook into the board support code. -/
inductive BoardCall where
  | LedBlinkExit
  deriving DecidableEq, Repr

/-- State the CPU hook runs on: the hardware and LED driver state, and the log of the
calls made so far. -/
structure Board (H : Type) where
  hw : H
  calls : List BoardCall

/-- The C function `CpuUserProgramStartHook()`: the returned value and the state afterwards. -/
def CpuUserProgramStartHook {H : Type} (drv : BoardDriver H) (b : Board H) :
    blt_bool × Board H :=
  if drv.LL_GPIO_IsInputPinSet_GPIOA_PIN_0 b.hw = 0 then
    (BLT_FALSE, b)
  else
    let b := { hw := drv.LedBlinkExit b.hw, calls := b.calls ++ [BoardCall.LedBlinkExit] }
    (BLT_TRUE, b)

/-! ## File system hooks -/

/-- Modelled from the spec: the result code `FRESULT` of the FatFs library, whose header
is not part of the sources. The hooks only compare a result with `FR_OK`; every other
code is a failure. -/
inductive FRESULT where
  | FR_OK
  | FR_ERR (code : Nat)
  deriving DecidableEq, Repr

/-- The fields of the FatFs file information object `FILINFO` that the hooks read. -/
structure FILINFO where
  fsize : Nat
  fattrib : Nat
  deriving DecidableEq, Repr

/-- The FatFs library as `hooks.c` uses it; FatFs is not part of the sources, so its
constants and functions are parameters. `D` is the state of the storage medium and of
FatFs, the file object `logfile.handle` included. Every function returns its result
and, when it can change the state, the state afterwards. -/
structure FatFs (D : Type) where
  AM_DIR : Nat
  FA_CREATE_ALWAYS : Nat
  FA_WRITE : Nat
  /-- The result of `f_stat(path, &fno)` and the content of `fno` after the call, for a
  `fno` that was zeroed before. -/
  f_stat : D → String → FRESULT × FILINFO
  /-- The effect of `f_open(&logfile.handle, path, mode)`. -/
  f_open : D → String → Nat → FRESULT × D
  /-- The effect of `f_close(&logfile.handle)`. -/
  f_close : D → FRESULT × D
  /-- The effect of `f_puts(str, &logfile.handle)`; the result is negative on failure. -/
  f_puts : D → String → Int × D
  /-- The effect of `f_unlink(path)`. -/
  f_unlink : D → String → FRESULT × D

/-- The state-changing calls of the file hooks into FatFs. -/
inductive FsCall where
  | f_open (path : String) (mode : Nat)
  | f_close
  | f_puts (str : String)
  | f_unlink (path : String)
  deriving DecidableEq, Repr

/-- The static variable `logfile` without its FatFs file object, which is part of the
FatFs state. -/
structure Logfile where
  canUse : blt_bool
  deriving DecidableEq, Repr

/-- State the file hooks run on: the storage and FatFs state, the variable `logfile`,
and the log of the FatFs calls made so far. -/
structure FileState (D : Type) where
  disk : D
  logfile : Logfile
  calls : List FsCall

/-- The value of `BOOT_FILE_LOGGING_ENABLE` in the shipped `blt_conf.h`. -/
def blt_conf.BOOT_FILE_LOGGING_ENABLE : Nat := 1

/-- The constant `firmwareFilename`. -/
def firmwareFilename : String := "/demoprog_olimexino_stm32f3.srec"

/-- The C function `FileIsFirmwareUpdateRequestedHook()`. -/
def FileIsFirmwareUpdateRequestedHook {D : Type} (fs : FatFs D) (s : FileState D) :
    blt_bool :=
  let r := fs.f_stat s.disk firmwareFilename
  let fileInfoObject := r.2
  if r.1 = FRESULT.FR_OK then
    if fileInfoObject.fsize > 0 ∧ (fileInfoObject.fattrib &&& fs.AM_DIR) = 0 then
      BLT_TRUE
    else BLT_FALSE
  else BLT_FALSE

/-- The C function `FileGetFirmwareFilenameHook()`. -/
def FileGetFirmwareFilenameHook : String := firmwareFilename

/-- The C function `FileFirmwareUpdateStartedHook()`; its body is compiled only when
`BOOT_FILE_LOGGING_ENABLE > 0`. -/
def FileFirmwareUpdateStartedHook {D : Type} (fs : FatFs D)
    (BOOT_FILE_LOGGING_ENABLE : Nat) (s : FileState D) : FileState D :=
  if BOOT_FILE_LOGGING_ENABLE > 0 then
    let s := { s with logfile := { s.logfile with canUse := BLT_FALSE } }
    let mode := fs.FA_CREATE_ALWAYS ||| fs.FA_WRITE
    let r := fs.f_open s.disk "/bootlog.txt" mode
    let s := { s with disk := r.2, calls := s.calls ++ [FsCall.f_open "/bootlog.txt" mode] }
    if r.1 = FRESULT.FR_OK then
      { s with logfile := { s.logfile with canUse := BLT_TRUE } }
    else s
  else s

/-- The C function `FileFirmwareUpdateCompletedHook()`; its body, the removal of the firmware file
included, is compiled only when `BOOT_FILE_LOGGING_ENABLE > 0`. -/
def FileFirmwareUpdateCompletedHook {D : Type} (fs : FatFs D)
    (BOOT_FILE_LOGGING_ENABLE : Nat) (s : FileState D) : FileState D :=
  if BOOT_FILE_LOGGING_ENABLE > 0 then
    let s :=
      if s.logfile.canUse = BLT_TRUE then
        { s with disk := (fs.f_close s.disk).2, calls := s.calls ++ [FsCall.f_close] }
      else s
    { s with disk := (fs.f_unlink s.disk firmwareFilename).2,
             calls := s.calls ++ [FsCall.f_unlink firmwareFilename] }
  else s

/-- The C function `FileFirmwareUpdateErrorHook(error_code)`; its body is compiled only when
`BOOT_FILE_LOGGING_ENABLE > 0`. -/
def FileFirmwareUpdateErrorHook {D : Type} (fs : FatFs D)
    (BOOT_FILE_LOGGING_ENABLE : Nat) (error_code : Nat) (s : FileState D) : FileState D :=
  let _error_code := error_code
  if BOOT_FILE_LOGGING_ENABLE > 0 then
    if s.logfile.canUse = BLT_TRUE then
      { s with disk := (fs.f_close s.disk).2, calls := s.calls ++ [FsCall.f_close] }
    else s
  else s

/-- The C function `FileFirmwareUpdateLogHook(info_string)`; the function exists only when
`BOOT_FILE_LOGGING_ENABLE > 0`. -/
def FileFirmwareUpdateLogHook {D : Type} (fs : FatFs D) (info_string : String)
    (s : FileState D) : FileState D :=
  if s.logfile.canUse = BLT_TRUE then
    let r := fs.f_puts s.disk info_string
    let s := { s with disk := r.2, calls := s.calls ++ [FsCall.f_puts info_string] }
    if r.1 < 0 then
      let s := { s with logfile := { s.logfile with canUse := BLT_FALSE } }
      { s with disk := (fs.f_close s.disk).2, calls := s.calls ++ [FsCall.f_close] }
    else s
  else s

/-- The state after `FileFirmwareUpdateLogHook` was called for each text of a list, in
order. -/
def logAll {D : Type} (fs : FatFs D) : List String → FileState D → FileState D
  | [], s => s
  | t :: ts, s => logAll fs ts (FileFirmwareUpdateLogHook fs t s)

/-- The number of `f_puts` calls in a call log. -/
def countPuts : List FsCall → Nat
  | [] => 0
  | FsCall.f_puts _ :: cs => countPuts cs + 1
  | _ :: cs => countPuts cs

/-- Whether, in the request sequence `history` (oldest first), a `GET_SEED` for
`resource` was served after the last `UNLOCK` request: the condition the specification
puts on an accepted key (no replay of a stale seed). This definition follows the words
of the specification, the hooks themselves keep no such record. -/
def seedPending (resource : Nat) (history : List XcpRequest) : Bool :=
  history.foldl (fun pending r =>
    match r with
    | .getSeed res => if res = resource then true else pending
    | .unlock _ _ _ => false) false

/-- The calls of the bootloader core into the file hooks that touch the log file. -/
inductive FileHookCall where
  | started
  | log (info_string : String)
  | completed
  | error (error_code : Nat)
  deriving DecidableEq, Repr

/-- The state after one file hook call. -/
def runFileHook {D : Type} (fs : FatFs D) (BOOT_FILE_LOGGING_ENABLE : Nat) :
    FileHookCall → FileState D → FileState D
  | .started, s => FileFirmwareUpdateStartedHook fs BOOT_FILE_LOGGING_ENABLE s
  | .log info_string, s => FileFirmwareUpdateLogHook fs info_string s
  | .completed, s => FileFirmwareUpdateCompletedHook fs BOOT_FILE_LOGGING_ENABLE s
  | .error error_code, s =>
    FileFirmwareUpdateErrorHook fs BOOT_FILE_LOGGING_ENABLE error_code s

/-- The state after a sequence of file hook calls, made in order. -/
def runFileHooks {D : Type} (fs : FatFs D) (BOOT_FILE_LOGGING_ENABLE : Nat) :
    List FileHookCall → FileState D → FileState D
  | [], s => s
  | c :: cs, s =>
    runFileHooks fs BOOT_FILE_LOGGING_ENABLE cs (runFileHook fs BOOT_FILE_LOGGING_ENABLE c s)

/-- Whether each `f_puts` of a sequence of texts, written one after the other starting
from the storage state `d`, succeeds (returns a value that is not negative). -/
def writesSucceed {D : Type} (fs : FatFs D) : List String → D → Bool
  | [], _ => true
  | t :: ts, d => decide (0 ≤ (fs.f_puts d t).1) && writesSucceed fs ts (fs.f_puts d t).2

/-- The number of `f_close` calls made so far plus one if the log file is marked usable:
the number of `f_close` calls a session will have made when it ends. -/
def closesDue {D : Type} (s : FileState D) : Nat :=
  s.calls.count FsCall.f_close + (if s.logfile.canUse = BLT_TRUE then 1 else 0)

/-! ## Non-volatile memory hooks -/

/-- Modelled from the spec: the result codes of the NVM hooks, `BLT_NVM_ERROR`,
`BLT_NVM_OKAY` and `BLT_NVM_NOT_IN_RANGE`; the header that defines them is not part of
the sources. The spec describes them as a tri-state outcome (failed, handled, not in
range). -/
inductive NvmResult where
  | BLT_NVM_ERROR
  | BLT_NVM_OKAY
  | BLT_NVM_NOT_IN_RANGE
  deriving DecidableEq, Repr

export NvmResult (BLT_NVM_ERROR BLT_NVM_OKAY BLT_NVM_NOT_IN_RANGE)

/-- The C function `NvmWriteHook(addr, len, data)`. -/
def NvmWriteHook (addr : Nat) (len : Nat) (data : Buffer) : NvmResult :=
  let _args := (addr, len, data)
  BLT_NVM_NOT_IN_RANGE

/-- The C function `NvmEraseHook(addr, len)`. -/
def NvmEraseHook (addr : Nat) (len : Nat) : NvmResult :=
  let _args := (addr, len)
  BLT_NVM_NOT_IN_RANGE

/-- Who serves an NVM request: the hook, with success or failure, or the default driver
of the internal memory. -/
inductive NvmRoute where
  | hookHandled
  | hookFailed
  | defaultDriver
  deriving DecidableEq, Repr

/-- Modelled from the spec: the dispatch of a write or erase request by the bootloader
core, which is not part of the sources. A hook result other than not in range is final;
when the hook reports not in range the core falls through to the default driver of the
internal memory. -/
def nvmDispatch : NvmResult → NvmRoute
  | BLT_NVM_OKAY => NvmRoute.hookHandled
  | BLT_NVM_ERROR => NvmRoute.hookFailed
  | BLT_NVM_NOT_IN_RANGE => NvmRoute.defaultDriver

/-! ## Info table configuration -/

/-- The value of `BOOT_INFO_TABLE_LEN` in the shipped `blt_conf.h`: the configured
length of the info table in bytes. -/
def blt_conf.BOOT_INFO_TABLE_LEN : Nat := 12

/-- Size and alignment of a C object type, in bytes. -/
structure CType where
  size : Nat
  align : Nat
  deriving DecidableEq, Repr

/-- Modelled from the spec: the type `blt_int32u` of the three fields of the info
table, whose typedef is in a header that is not part of the sources: the unsigned
32-bit integer, 4 bytes wide and aligned to 4 bytes. -/
def blt_int32u : CType := { size := 4, align := 4 }

/-- An offset rounded up to the next multiple of an alignment. -/
def alignUp (offset align : Nat) : Nat :=
  (offset + (align - 1)) / align * align

/-- The value of `sizeof` for a struct with the given member types in declaration
order: each member starts at the next offset that is a multiple of its alignment, and
the size is rounded up to a multiple of the largest member alignment. -/
def sizeofStruct (members : List CType) : Nat :=
  alignUp (members.foldl (fun offset m => alignUp offset m.align + m.size) 0)
    (members.foldl (fun a m => max a m.align) 1)

/-- The member types of `struct firmwareInfoTable` in declaration order: `tableId`,
`productId` and `firmwareVersion`. -/
def firmwareInfoTable_members : List CType := [blt_int32u, blt_int32u, blt_int32u]

/-- The condition of the compile-time assertion in `InfoTableCheckHook`,
`ASSERT_CT(BOOT_INFO_TABLE_LEN == sizeof(struct firmwareInfoTable))`, for a configured
length. -/
def InfoTableCheckHook_ASSERT_CT (BOOT_INFO_TABLE_LEN : Nat) : Bool :=
  BOOT_INFO_TABLE_LEN == sizeofStruct firmwareInfoTable_members

/-! ## A storage instance -/

/-- A small storage behind the FatFs interface: one slot for the file at the firmware
path, the log file, and a flag that makes the medium refuse every write. It is used to
evaluate the hooks on concrete states. -/
structure RamDisk where
  firmware : Option FILINFO
  logOpen : Bool
  logText : List String
  mediumFails : Bool
  deriving DecidableEq, Repr

/-- The FatFs functions on a `RamDisk`. -/
def ramFatFs : FatFs RamDisk where
  AM_DIR := 0x10
  FA_CREATE_ALWAYS := 0x08
  FA_WRITE := 0x02
  f_stat := fun d path =>
    if path = firmwareFilename then
      match d.firmware with
      | some info => (FRESULT.FR_OK, info)
      | none => (FRESULT.FR_ERR 4, { fsize := 0, fattrib := 0 })
    else (FRESULT.FR_ERR 4, { fsize := 0, fattrib := 0 })
  f_open := fun d _path _mode =>
    if d.mediumFails then (FRESULT.FR_ERR 1, d)
    else (FRESULT.FR_OK, { d with logOpen := true, logText := [] })
  f_close := fun d => (FRESULT.FR_OK, { d with logOpen := false })
  f_puts := fun d str =>
    if d.logOpen ∧ ¬ d.mediumFails then
      ((str.length : Int), { d with logText := d.logText ++ [str] })
    else (-1, d)
  f_unlink := fun d path =>
    if d.mediumFails then (FRESULT.FR_ERR 10, d)
    else if path = firmwareFilename then
      match d.firmware with
      | some _ => (FRESULT.FR_OK, { d with firmware := none })
      | none => (FRESULT.FR_ERR 4, d)
    else (FRESULT.FR_ERR 4, d)

/-- A state in which the firmware file is present, the log file is open and marked
usable, and the medium accepts writes. -/
def ramReady : FileState RamDisk where
  disk := { firmware := some { fsize := 1024, fattrib := 0x20 }, logOpen := true,
            logText := [], mediumFails := false }
  logfile := { canUse := BLT_TRUE }
  calls := []

/-- The state `ramReady` on a medium that refuses every write. -/
def ramFailing : FileState RamDisk where
  disk := { firmware := some { fsize := 1024, fattrib := 0x20 }, logOpen := true,
            logText := [], mediumFails := true }
  logfile := { canUse := BLT_TRUE }
  calls := []

/-- A write-protected medium before an update: the firmware file is present, the log
file is not open and not marked usable, and every write is refused. -/
def ramProtected : FileState RamDisk where
  disk := { firmware := some { fsize := 1024, fattrib := 0x20 }, logOpen := false,
            logText := [], mediumFails := true }
  logfile := { canUse := BLT_FALSE }
  calls := []

/-- A healthy medium before an update: the firmware file is present, the log file is
not open and not marked usable. -/
def ramIdle : FileState RamDisk where
  disk := { firmware := some { fsize := 1024, fattrib := 0x20 }, logOpen := false,
            logText := [], mediumFails := false }
  logfile := { canUse := BLT_FALSE }
  calls := []

/-! ## Theorems -/

/-- C1: `InfoTableCheckHook` returns `BLT_TRUE` if and only if the `tableId` fields of
the two tables are equal and their `productId` fields are equal, and `BLT_FALSE` in
every other case: when the `tableId` fields differ, whatever the `productId` fields
are, and when the `tableId` fields are equal but the `productId` fields differ. -/
theorem InfoTableCheckHook_true_iff (mem : Nat → firmwareInfoTable)
    (newInfoTable currentInfoTable : Nat) :
    (InfoTableCheckHook mem newInfoTable currentInfoTable = BLT_TRUE ↔
      (mem currentInfoTable).tableId = (mem newInfoTable).tableId ∧
      (mem currentInfoTable).productId = (mem newInfoTable).productId) ∧
    (InfoTableCheckHook mem newInfoTable currentInfoTable = BLT_FALSE ↔
      ((mem currentInfoTable).tableId ≠ (mem newInfoTable).tableId ∨
       ((mem currentInfoTable).tableId = (mem newInfoTable).tableId ∧
        (mem currentInfoTable).productId ≠ (mem newInfoTable).productId))) := by
  unfold InfoTableCheckHook
  by_cases ht : (mem currentInfoTable).tableId = (mem newInfoTable).tableId
  · by_cases hp : (mem currentInfoTable).productId = (mem newInfoTable).productId
    · simp [ht, hp]
    · simp [ht, hp]
  · simp [ht]

/-- C2: `XcpVerifyKeyHook` returns 1 if and only if the resource is `XCP_RES_PGM` and
the first key byte is `0x55 - 1 = 0x54`, and 0 in every other case; for the
programming resource a key starting with `0x54` is accepted and one starting with
`0x55` is rejected. -/
theorem XcpVerifyKeyHook_one_iff (XCP_RES_PGM resource : Nat) (key : Buffer) (len : Nat) :
    (XcpVerifyKeyHook XCP_RES_PGM resource key len = 1 ↔
      resource = XCP_RES_PGM ∧ key 0 = 0x54) ∧
    (XcpVerifyKeyHook XCP_RES_PGM resource key len = 0 ↔
      ¬ (resource = XCP_RES_PGM ∧ key 0 = 0x54)) ∧
    XcpVerifyKeyHook XCP_RES_PGM XCP_RES_PGM (Function.update key 0 0x54) len = 1 ∧
    XcpVerifyKeyHook XCP_RES_PGM XCP_RES_PGM (Function.update key 0 0x55) len = 0 := by
  unfold XcpVerifyKeyHook
  refine ⟨?_, ?_, ?_, ?_⟩
  · by_cases h : resource = XCP_RES_PGM ∧ key 0 = 0x55 - 1 <;> simp [h]
  · by_cases h : resource = XCP_RES_PGM ∧ key 0 = 0x55 - 1 <;> simp [h]
  · simp
  · simp

/-- C3 (as stated, refuted): with `XCP_RES_PGM = 0x10`, an `UNLOCK` for the programming
resource with key `0x54` is accepted although no seed was requested before, and it is
accepted again when it is repeated after one seed request and one verification, with no
new seed request in between. -/
theorem XcpVerifyKeyHook_accepts_without_seed :
    (seedPending 0x10 [] = false ∧
      xcpUnlockAfter 0x10 (fun _ => 0) [] 0x10 (fun _ => 0x54) 1 = 1) ∧
    (seedPending 0x10
        [XcpRequest.getSeed 0x10, XcpRequest.unlock 0x10 (fun _ => 0x54) 1] = false ∧
      xcpUnlockAfter 0x10 (fun _ => 0)
        [XcpRequest.getSeed 0x10, XcpRequest.unlock 0x10 (fun _ => 0x54) 1]
        0x10 (fun _ => 0x54) 1 = 1) := by
  refine ⟨⟨rfl, rfl⟩, ⟨rfl, rfl⟩⟩

/-- C3 (amended): `XcpVerifyKeyHook` keeps no record of seed requests. After every
sequence of earlier `GET_SEED` and `UNLOCK` requests, and from every content of the seed
buffer, its result is the one of a call with no history: 1 exactly when the resource is
`XCP_RES_PGM` and the first key byte is `0x54`, also when no seed was requested before
and when a verification is repeated. -/
theorem XcpVerifyKeyHook_history_independent (XCP_RES_PGM : Nat) (seed : Buffer)
    (history : List XcpRequest) (resource : Nat) (key : Buffer) (len : Nat) :
    xcpUnlockAfter XCP_RES_PGM seed history resource key len =
      XcpVerifyKeyHook XCP_RES_PGM resource key len ∧
    (xcpUnlockAfter XCP_RES_PGM seed history resource key len = 1 ↔
      resource = XCP_RES_PGM ∧ key 0 = 0x54) := by
  have h : xcpUnlockAfter XCP_RES_PGM seed history resource key len =
      XcpVerifyKeyHook XCP_RES_PGM resource key len := rfl
  refine ⟨h, ?_⟩
  rw [h]
  unfold XcpVerifyKeyHook
  by_cases hk : resource = XCP_RES_PGM ∧ key 0 = 0x55 - 1 <;> simp [hk]

/-- C4 (as stated, refuted): with `XCP_RES_PGM = 0x10`, the mask `0x11` has the
programming bit set and `XcpGetSeedHook` writes the seed `0x55` for it, but the key
`seed[0] - 1` is rejected by `XcpVerifyKeyHook` called with the same mask. -/
theorem XcpVerifyKeyHook_rejects_combined_mask :
    (0x11 &&& 0x10) ≠ 0 ∧
    (XcpGetSeedHook 0x10 0x11 (fun _ => 0)).2 0 = 0x55 ∧
    XcpVerifyKeyHook 0x10 0x11
      (fun _ => (XcpGetSeedHook 0x10 0x11 (fun _ => 0)).2 0 - 1) 1 = 0 := by
  refine ⟨by decide, rfl, rfl⟩

/-- C4 (amended): when the resource is exactly `XCP_RES_PGM` (a non-zero mask),
`XcpGetSeedHook` writes the seed `0x55` and reports length 1, and every key whose first
byte is `seed[0] - 1` is accepted by `XcpVerifyKeyHook` called with that resource; for
every other resource value, the masks that combine the programming bit with other bits
included, `XcpVerifyKeyHook` rejects every key. -/
theorem seed_key_round_trip (XCP_RES_PGM : Nat) (hpgm : XCP_RES_PGM ≠ 0)
    (seed key : Buffer) (len : Nat) :
    XcpGetSeedHook XCP_RES_PGM XCP_RES_PGM seed = (1, Function.update seed 0 0x55) ∧
    XcpVerifyKeyHook XCP_RES_PGM XCP_RES_PGM
      (Function.update key 0 ((XcpGetSeedHook XCP_RES_PGM XCP_RES_PGM seed).2 0 - 1))
      len = 1 ∧
    (∀ resource : Nat, resource ≠ XCP_RES_PGM →
      XcpVerifyKeyHook XCP_RES_PGM resource key len = 0) := by
  have hs : XcpGetSeedHook XCP_RES_PGM XCP_RES_PGM seed
      = (1, Function.update seed 0 0x55) := by
    simp [XcpGetSeedHook, Nat.and_self, hpgm]
  refine ⟨hs, ?_, ?_⟩
  · rw [hs]
    simp [XcpVerifyKeyHook]
  · intro resource hr
    simp [XcpVerifyKeyHook, hr]

/-- Witness for C4 (amended) at `XCP_RES_PGM = 0x10`. -/
theorem seed_key_round_trip_witness :
    (0x10 : Nat) ≠ 0 ∧
    XcpVerifyKeyHook 0x10 0x10
      (Function.update (fun _ => 0) 0 ((XcpGetSeedHook 0x10 0x10 (fun _ => 0)).2 0 - 1))
      1 = 1 :=
  ⟨by decide, (seed_key_round_trip 0x10 (by decide) (fun _ => 0) (fun _ => 0) 1).2.1⟩

/-- C9: `CpuUserProgramStartHook` returns `BLT_FALSE` exactly when the input PA0 reads
low (0) and `BLT_TRUE` exactly when it reads high; the result is determined by the
input level alone. -/
theorem CpuUserProgramStartHook_result {H : Type} (drv : BoardDriver H) (b : Board H) :
    ((CpuUserProgramStartHook drv b).1 = BLT_FALSE ↔
      drv.LL_GPIO_IsInputPinSet_GPIOA_PIN_0 b.hw = 0) ∧
    ((CpuUserProgramStartHook drv b).1 = BLT_TRUE ↔
      drv.LL_GPIO_IsInputPinSet_GPIOA_PIN_0 b.hw ≠ 0) ∧
    (CpuUserProgramStartHook drv b).1 =
      (if drv.LL_GPIO_IsInputPinSet_GPIOA_PIN_0 b.hw = 0 then BLT_FALSE else BLT_TRUE) := by
  unfold CpuUserProgramStartHook
  by_cases h : drv.LL_GPIO_IsInputPinSet_GPIOA_PIN_0 b.hw = 0 <;> simp [h]

/-- C10: `CpuUserProgramStartHook` calls `LedBlinkExit` if and only if it returns
`BLT_TRUE`. When it returns `BLT_FALSE` the state, the LED driver included, and the
call log are unchanged; when it returns `BLT_TRUE` the state is the one after a single
`LedBlinkExit` and exactly one `LedBlinkExit` call is added to the call log. -/
theorem CpuUserProgramStartHook_led_release {H : Type} (drv : BoardDriver H)
    (b : Board H) :
    ((CpuUserProgramStartHook drv b).1 = BLT_TRUE ↔
      (CpuUserProgramStartHook drv b).2.calls = b.calls ++ [BoardCall.LedBlinkExit]) ∧
    ((CpuUserProgramStartHook drv b).1 = BLT_FALSE ↔
      (CpuUserProgramStartHook drv b).2.calls = b.calls) ∧
    (CpuUserProgramStartHook drv b).2.hw =
      (if (CpuUserProgramStartHook drv b).1 = BLT_TRUE then drv.LedBlinkExit b.hw
       else b.hw) ∧
    ((CpuUserProgramStartHook drv b).2.calls.count BoardCall.LedBlinkExit =
      b.calls.count BoardCall.LedBlinkExit +
        (if (CpuUserProgramStartHook drv b).1 = BLT_TRUE then 1 else 0)) := by
  unfold CpuUserProgramStartHook
  by_cases h : drv.LL_GPIO_IsInputPinSet_GPIOA_PIN_0 b.hw = 0 <;> simp [h]

/-- C5: `FileIsFirmwareUpdateRequestedHook` returns `BLT_TRUE` if and only if `f_stat`
on the firmware path succeeds with `FR_OK`, the reported size is greater than zero and
the attribute `AM_DIR` is not set; it returns `BLT_FALSE` exactly when the query fails,
the size is zero or the entry is a directory. -/
theorem FileIsFirmwareUpdateRequestedHook_true_iff {D : Type} (fs : FatFs D)
    (s : FileState D) :
    (FileIsFirmwareUpdateRequestedHook fs s = BLT_TRUE ↔
      (fs.f_stat s.disk firmwareFilename).1 = FRESULT.FR_OK ∧
      0 < (fs.f_stat s.disk firmwareFilename).2.fsize ∧
      ((fs.f_stat s.disk firmwareFilename).2.fattrib &&& fs.AM_DIR) = 0) ∧
    (FileIsFirmwareUpdateRequestedHook fs s = BLT_FALSE ↔
      ((fs.f_stat s.disk firmwareFilename).1 ≠ FRESULT.FR_OK ∨
       (fs.f_stat s.disk firmwareFilename).2.fsize = 0 ∨
       ((fs.f_stat s.disk firmwareFilename).2.fattrib &&& fs.AM_DIR) ≠ 0)) := by
  unfold FileIsFirmwareUpdateRequestedHook
  by_cases hr : (fs.f_stat s.disk firmwareFilename).1 = FRESULT.FR_OK
  · by_cases hz : (fs.f_stat s.disk firmwareFilename).2.fsize = 0
    · simp [hr, hz]
    · by_cases hd : ((fs.f_stat s.disk firmwareFilename).2.fattrib &&& fs.AM_DIR) = 0
      · simp [hr, hz, hd, Nat.pos_of_ne_zero hz]
      · simp [hr, hz, hd]
  · simp [hr]

/-- C6: with logging compiled in, `FileFirmwareUpdateCompletedHook` makes these FatFs
calls and no others: one `f_close` exactly when the log file is marked usable, and
after it, whether or not the log was usable, one `f_unlink` of the path that
`FileGetFirmwareFilenameHook` returns. The storage state is the result of these calls
in this order and the variable `logfile` is not written. -/
theorem FileFirmwareUpdateCompletedHook_effect {D : Type} (fs : FatFs D)
    (BOOT_FILE_LOGGING_ENABLE : Nat) (hlog : 0 < BOOT_FILE_LOGGING_ENABLE)
    (s : FileState D) :
    (FileFirmwareUpdateCompletedHook fs BOOT_FILE_LOGGING_ENABLE s).calls =
      s.calls ++ (if s.logfile.canUse = BLT_TRUE then [FsCall.f_close] else []) ++
        [FsCall.f_unlink FileGetFirmwareFilenameHook] ∧
    (FileFirmwareUpdateCompletedHook fs BOOT_FILE_LOGGING_ENABLE s).disk =
      (fs.f_unlink (if s.logfile.canUse = BLT_TRUE then (fs.f_close s.disk).2 else s.disk)
        FileGetFirmwareFilenameHook).2 ∧
    (FileFirmwareUpdateCompletedHook fs BOOT_FILE_LOGGING_ENABLE s).logfile = s.logfile := by
  unfold FileFirmwareUpdateCompletedHook FileGetFirmwareFilenameHook
  by_cases hc : s.logfile.canUse = BLT_TRUE <;> simp [hlog, hc]

/-- Witness for C6: the hook on `ramReady` with logging enabled closes the log and then
removes the firmware file. -/
theorem FileFirmwareUpdateCompletedHook_effect_witness :
    0 < blt_conf.BOOT_FILE_LOGGING_ENABLE ∧
    (FileFirmwareUpdateCompletedHook ramFatFs blt_conf.BOOT_FILE_LOGGING_ENABLE
      ramReady).calls =
      ramReady.calls ++ (if ramReady.logfile.canUse = BLT_TRUE then [FsCall.f_close] else [])
        ++ [FsCall.f_unlink FileGetFirmwareFilenameHook] :=
  ⟨by decide,
   (FileFirmwareUpdateCompletedHook_effect ramFatFs blt_conf.BOOT_FILE_LOGGING_ENABLE
     (by decide) ramReady).1⟩

/-- C7: with logging compiled in, `FileFirmwareUpdateErrorHook` makes one `f_close`
call exactly when the log file is marked usable and no other FatFs call, in particular
no `f_unlink`. The storage state is unchanged or the one after that `f_close`, so the
status of every path that closing the log file leaves alone is the same after the hook
as before. The result does not depend on the error code. -/
theorem FileFirmwareUpdateErrorHook_effect {D : Type} (fs : FatFs D)
    (BOOT_FILE_LOGGING_ENABLE : Nat) (hlog : 0 < BOOT_FILE_LOGGING_ENABLE)
    (error_code : Nat) (s : FileState D) :
    (FileFirmwareUpdateErrorHook fs BOOT_FILE_LOGGING_ENABLE error_code s).calls =
      s.calls ++ (if s.logfile.canUse = BLT_TRUE then [FsCall.f_close] else []) ∧
    (∀ path : String,
      (FileFirmwareUpdateErrorHook fs BOOT_FILE_LOGGING_ENABLE error_code s).calls.count
        (FsCall.f_unlink path) = s.calls.count (FsCall.f_unlink path)) ∧
    (FileFirmwareUpdateErrorHook fs BOOT_FILE_LOGGING_ENABLE error_code s).disk =
      (if s.logfile.canUse = BLT_TRUE then (fs.f_close s.disk).2 else s.disk) ∧
    (∀ path : String, (∀ d : D, fs.f_stat (fs.f_close d).2 path = fs.f_stat d path) →
      fs.f_stat (FileFirmwareUpdateErrorHook fs BOOT_FILE_LOGGING_ENABLE error_code s).disk
        path = fs.f_stat s.disk path) ∧
    (∀ other_code : Nat,
      FileFirmwareUpdateErrorHook fs BOOT_FILE_LOGGING_ENABLE other_code s =
        FileFirmwareUpdateErrorHook fs BOOT_FILE_LOGGING_ENABLE error_code s) := by
  unfold FileFirmwareUpdateErrorHook
  by_cases hc : s.logfile.canUse = BLT_TRUE
  · refine ⟨?_, ?_, ?_, ?_, ?_⟩
    · simp [hlog, hc]
    · intro path
      simp [hlog, hc, List.count_append]
    · simp [hlog, hc]
    · intro path hclose
      simp [hlog, hc, hclose]
    · intro _
      rfl
  · refine ⟨?_, ?_, ?_, ?_, ?_⟩
    · simp [hlog, hc]
    · intro path
      simp [hlog, hc]
    · simp [hlog, hc]
    · intro path _
      simp [hlog, hc]
    · intro _
      rfl

/-- Witness for C7: on `ramReady` the hook closes the log, and the status of the
firmware file, which closing the log leaves alone, is the same as before. -/
theorem FileFirmwareUpdateErrorHook_effect_witness :
    0 < blt_conf.BOOT_FILE_LOGGING_ENABLE ∧
    (∀ d : RamDisk, ramFatFs.f_stat (ramFatFs.f_close d).2 firmwareFilename =
      ramFatFs.f_stat d firmwareFilename) ∧
    (FileFirmwareUpdateErrorHook ramFatFs blt_conf.BOOT_FILE_LOGGING_ENABLE 3
      ramReady).calls =
      ramReady.calls ++ (if ramReady.logfile.canUse = BLT_TRUE then [FsCall.f_close] else []) ∧
    ramFatFs.f_stat
      (FileFirmwareUpdateErrorHook ramFatFs blt_conf.BOOT_FILE_LOGGING_ENABLE 3
        ramReady).disk firmwareFilename = ramFatFs.f_stat ramReady.disk firmwareFilename :=
  ⟨by decide, fun _ => rfl,
   (FileFirmwareUpdateErrorHook_effect ramFatFs blt_conf.BOOT_FILE_LOGGING_ENABLE
     (by decide) 3 ramReady).1,
   (FileFirmwareUpdateErrorHook_effect ramFatFs blt_conf.BOOT_FILE_LOGGING_ENABLE
     (by decide) 3 ramReady).2.2.2.1 firmwareFilename (fun _ => rfl)⟩

/-- The log hook does nothing on a state whose log file is not marked usable. -/
theorem FileFirmwareUpdateLogHook_unusable {D : Type} (fs : FatFs D) (text : String)
    (s : FileState D) (h : s.logfile.canUse ≠ BLT_TRUE) :
    FileFirmwareUpdateLogHook fs text s = s := by
  simp [FileFirmwareUpdateLogHook, h]

/-- A sequence of log hook calls does nothing on a state whose log file is not marked
usable. -/
theorem logAll_unusable {D : Type} (fs : FatFs D) (texts : List String)
    (s : FileState D) (h : s.logfile.canUse ≠ BLT_TRUE) :
    logAll fs texts s = s := by
  induction texts with
  | nil => rfl
  | cons t ts ih =>
    simp only [logAll]
    rw [FileFirmwareUpdateLogHook_unusable fs t s h]
    exact ih

/-- C8: when the log file is marked usable and the write of a log text fails,
`FileFirmwareUpdateLogHook` marks the log file unusable, having made one `f_puts` and
one `f_close` call. From then on every sequence of further log hook calls leaves the
whole state as it is, so no further `f_puts` is attempted, and so does a log hook call
on any state in which the log file is marked unusable, whatever the storage state is.
The hook is a total function: it returns in every case. -/
theorem FileFirmwareUpdateLogHook_write_failure {D : Type} (fs : FatFs D)
    (s : FileState D) (text : String) (later : List String)
    (huse : s.logfile.canUse = BLT_TRUE) (hfail : (fs.f_puts s.disk text).1 < 0) :
    (FileFirmwareUpdateLogHook fs text s).logfile.canUse = BLT_FALSE ∧
    (FileFirmwareUpdateLogHook fs text s).calls =
      s.calls ++ [FsCall.f_puts text, FsCall.f_close] ∧
    logAll fs later (FileFirmwareUpdateLogHook fs text s) =
      FileFirmwareUpdateLogHook fs text s ∧
    countPuts (logAll fs later (FileFirmwareUpdateLogHook fs text s)).calls =
      countPuts (FileFirmwareUpdateLogHook fs text s).calls ∧
    (∀ (s2 : FileState D) (t : String), s2.logfile.canUse = BLT_FALSE →
      FileFirmwareUpdateLogHook fs t s2 = s2) := by
  have hflag : (FileFirmwareUpdateLogHook fs text s).logfile.canUse = BLT_FALSE := by
    simp [FileFirmwareUpdateLogHook, huse, hfail]
  have hne : (FileFirmwareUpdateLogHook fs text s).logfile.canUse ≠ BLT_TRUE := by
    rw [hflag]
    decide
  have hlater := logAll_unusable fs later (FileFirmwareUpdateLogHook fs text s) hne
  refine ⟨hflag, ?_, hlater, ?_, ?_⟩
  · simp [FileFirmwareUpdateLogHook, huse, hfail]
  · rw [hlater]
  · intro s2 t h2
    apply FileFirmwareUpdateLogHook_unusable
    rw [h2]
    decide

/-- Witness for C8: on a medium that refuses writes the first log text fails, and three
further log texts cause no call at all. -/
theorem FileFirmwareUpdateLogHook_write_failure_witness :
    ramFailing.logfile.canUse = BLT_TRUE ∧
    (ramFatFs.f_puts ramFailing.disk "erasing").1 < 0 ∧
    (logAll ramFatFs ["a", "b", "c"]
      (FileFirmwareUpdateLogHook ramFatFs "erasing" ramFailing)).calls =
      [FsCall.f_puts "erasing", FsCall.f_close] :=
  ⟨rfl, by decide,
   by
    have h := FileFirmwareUpdateLogHook_write_failure ramFatFs ramFailing "erasing"
      ["a", "b", "c"] rfl (by decide)
    rw [h.2.2.1, h.2.1]
    rfl⟩

/-- C11: the result of `InfoTableCheckHook` does not depend on `firmwareVersion`. Two
calls whose candidate tables agree on `tableId` and `productId` and whose current
tables agree on `tableId` and `productId` give the same result, whatever the four
versions are; so a candidate with the identifiers of the current table is allowed also
when its version is lower. -/
theorem InfoTableCheckHook_version_independent (mem mem2 : Nat → firmwareInfoTable)
    (newInfoTable currentInfoTable newInfoTable2 currentInfoTable2 : Nat)
    (hnt : (mem newInfoTable).tableId = (mem2 newInfoTable2).tableId)
    (hnp : (mem newInfoTable).productId = (mem2 newInfoTable2).productId)
    (hct : (mem currentInfoTable).tableId = (mem2 currentInfoTable2).tableId)
    (hcp : (mem currentInfoTable).productId = (mem2 currentInfoTable2).productId) :
    InfoTableCheckHook mem newInfoTable currentInfoTable =
      InfoTableCheckHook mem2 newInfoTable2 currentInfoTable2 := by
  unfold InfoTableCheckHook
  simp only [hnt, hnp, hct, hcp]

/-- Witness for C11: the current table `{tableId = 7, productId = 3}` with version
10429 at address 0; a candidate with the same identifiers and the lower version 10000
at address 12 gets the same result as a candidate with the higher version 20000, and
that result is `BLT_TRUE`. -/
theorem InfoTableCheckHook_version_independent_witness :
    InfoTableCheckHook
      (fun a => if a = 0 then { tableId := 7, productId := 3, firmwareVersion := 10429 }
        else { tableId := 7, productId := 3, firmwareVersion := 10000 }) 12 0 =
    InfoTableCheckHook
      (fun a => if a = 0 then { tableId := 7, productId := 3, firmwareVersion := 10429 }
        else { tableId := 7, productId := 3, firmwareVersion := 20000 }) 12 0 ∧
    InfoTableCheckHook
      (fun a => if a = 0 then { tableId := 7, productId := 3, firmwareVersion := 10429 }
        else { tableId := 7, productId := 3, firmwareVersion := 10000 }) 12 0 = BLT_TRUE :=
  ⟨InfoTableCheckHook_version_independent _ _ 12 0 12 0 rfl rfl rfl rfl, rfl⟩

/-- C12: for every resource mask `XcpGetSeedHook` reports the seed length 1, never 0,
and for a mask that includes the programming resource the byte it leaves in `seed[0]`
is `0x55`. -/
theorem XcpGetSeedHook_length_one (XCP_RES_PGM resource : Nat) (seed : Buffer) :
    (XcpGetSeedHook XCP_RES_PGM resource seed).1 = 1 ∧
    (XcpGetSeedHook XCP_RES_PGM resource seed).1 ≠ 0 ∧
    ((resource &&& XCP_RES_PGM) ≠ 0 →
      (XcpGetSeedHook XCP_RES_PGM resource seed).2 0 = 0x55) := by
  unfold XcpGetSeedHook
  refine ⟨rfl, by simp, ?_⟩
  intro h
  simp [h]

/-- Witness for C12 with `XCP_RES_PGM = 0x10` and the mask `0x11`. -/
theorem XcpGetSeedHook_length_one_witness :
    (0x11 &&& 0x10) ≠ 0 ∧ (XcpGetSeedHook 0x10 0x11 (fun _ => 0)).2 0 = 0x55 :=
  ⟨by decide, (XcpGetSeedHook_length_one 0x10 0x11 (fun _ => 0)).2.2 (by decide)⟩

/-- C13: with logging compiled in, after `FileFirmwareUpdateStartedHook` the log file
is marked usable if and only if its one `f_open` of `/bootlog.txt` succeeded, and is
marked unusable otherwise, whatever the flag was before the call. -/
theorem FileFirmwareUpdateStartedHook_flag {D : Type} (fs : FatFs D)
    (BOOT_FILE_LOGGING_ENABLE : Nat) (hlog : 0 < BOOT_FILE_LOGGING_ENABLE)
    (s : FileState D) :
    ((FileFirmwareUpdateStartedHook fs BOOT_FILE_LOGGING_ENABLE s).logfile.canUse = BLT_TRUE ↔
      (fs.f_open s.disk "/bootlog.txt" (fs.FA_CREATE_ALWAYS ||| fs.FA_WRITE)).1
        = FRESULT.FR_OK) ∧
    ((FileFirmwareUpdateStartedHook fs BOOT_FILE_LOGGING_ENABLE s).logfile.canUse = BLT_FALSE ↔
      (fs.f_open s.disk "/bootlog.txt" (fs.FA_CREATE_ALWAYS ||| fs.FA_WRITE)).1
        ≠ FRESULT.FR_OK) ∧
    (FileFirmwareUpdateStartedHook fs BOOT_FILE_LOGGING_ENABLE s).calls =
      s.calls ++ [FsCall.f_open "/bootlog.txt" (fs.FA_CREATE_ALWAYS ||| fs.FA_WRITE)] ∧
    (FileFirmwareUpdateStartedHook fs BOOT_FILE_LOGGING_ENABLE s).disk =
      (fs.f_open s.disk "/bootlog.txt" (fs.FA_CREATE_ALWAYS ||| fs.FA_WRITE)).2 ∧
    (∀ flag : blt_bool,
      (FileFirmwareUpdateStartedHook fs BOOT_FILE_LOGGING_ENABLE
        { s with logfile := { canUse := flag } }).logfile =
      (FileFirmwareUpdateStartedHook fs BOOT_FILE_LOGGING_ENABLE s).logfile) := by
  unfold FileFirmwareUpdateStartedHook
  by_cases ho : (fs.f_open s.disk "/bootlog.txt" (fs.FA_CREATE_ALWAYS ||| fs.FA_WRITE)).1
      = FRESULT.FR_OK <;> simp [hlog, ho]

/-- Witness for C13: on a write-protected medium the open fails and a stale usable flag
is overwritten; on a healthy medium the open succeeds and the log is marked usable. -/
theorem FileFirmwareUpdateStartedHook_flag_witness :
    0 < blt_conf.BOOT_FILE_LOGGING_ENABLE ∧
    (FileFirmwareUpdateStartedHook ramFatFs blt_conf.BOOT_FILE_LOGGING_ENABLE
      ramFailing).logfile.canUse = BLT_FALSE ∧
    (FileFirmwareUpdateStartedHook ramFatFs blt_conf.BOOT_FILE_LOGGING_ENABLE
      ramIdle).logfile.canUse = BLT_TRUE :=
  ⟨by decide,
   (FileFirmwareUpdateStartedHook_flag ramFatFs blt_conf.BOOT_FILE_LOGGING_ENABLE
     (by decide) ramFailing).2.1.2 (by decide),
   (FileFirmwareUpdateStartedHook_flag ramFatFs blt_conf.BOOT_FILE_LOGGING_ENABLE
     (by decide) ramIdle).1.2 (by decide)⟩

/-- C16: for every address, length and data buffer `NvmWriteHook` and `NvmEraseHook`
return `BLT_NVM_NOT_IN_RANGE`, never `BLT_NVM_OKAY` or `BLT_NVM_ERROR`, so the dispatch
of the bootloader core hands every write and erase request to the default driver of
the internal memory. -/
theorem NvmHooks_not_in_range (addr len : Nat) (data : Buffer) :
    NvmWriteHook addr len data = BLT_NVM_NOT_IN_RANGE ∧
    NvmWriteHook addr len data ≠ BLT_NVM_OKAY ∧
    NvmWriteHook addr len data ≠ BLT_NVM_ERROR ∧
    NvmEraseHook addr len = BLT_NVM_NOT_IN_RANGE ∧
    NvmEraseHook addr len ≠ BLT_NVM_OKAY ∧
    NvmEraseHook addr len ≠ BLT_NVM_ERROR ∧
    nvmDispatch (NvmWriteHook addr len data) = NvmRoute.defaultDriver ∧
    nvmDispatch (NvmEraseHook addr len) = NvmRoute.defaultDriver := by
  refine ⟨rfl, ?_, ?_, rfl, ?_, ?_, rfl, rfl⟩ <;> simp [NvmWriteHook, NvmEraseHook]

/-- C19 (the code at the failing configuration): with `BOOT_FILE_LOGGING_ENABLE = 0`
`FileFirmwareUpdateCompletedHook` leaves the state as it is and makes no FatFs call, so
no `f_unlink` of the firmware file; with the switch at 1 the call log ends with that
`f_unlink`. -/
theorem FileFirmwareUpdateCompletedHook_logging_disabled {D : Type} (fs : FatFs D)
    (s : FileState D) :
    FileFirmwareUpdateCompletedHook fs 0 s = s ∧
    (FileFirmwareUpdateCompletedHook fs 0 s).calls = s.calls ∧
    (FileFirmwareUpdateCompletedHook fs 1 s).calls.getLast? =
      some (FsCall.f_unlink firmwareFilename) := by
  unfold FileFirmwareUpdateCompletedHook
  simp

/-- C20: `XcpGetSeedHook` always reports the length 1. For a mask without the
`XCP_RES_PGM` bit it leaves the whole seed buffer as it was, so the byte reported as
the seed is the one the buffer held before the call; for a mask with the bit it writes
`seed[0]` and no other byte. -/
theorem XcpGetSeedHook_frame (XCP_RES_PGM resource : Nat) (seed : Buffer) :
    (XcpGetSeedHook XCP_RES_PGM resource seed).1 = 1 ∧
    ((resource &&& XCP_RES_PGM) = 0 →
      (XcpGetSeedHook XCP_RES_PGM resource seed).2 = seed) ∧
    ((resource &&& XCP_RES_PGM) ≠ 0 →
      (XcpGetSeedHook XCP_RES_PGM resource seed).2 = Function.update seed 0 0x55) ∧
    (∀ i : Nat, i ≠ 0 → (XcpGetSeedHook XCP_RES_PGM resource seed).2 i = seed i) := by
  unfold XcpGetSeedHook
  refine ⟨rfl, ?_, ?_, ?_⟩
  · intro h
    simp [h]
  · intro h
    simp [h]
  · intro i hi
    by_cases h : (resource &&& XCP_RES_PGM) = 0 <;> simp [h, hi]

/-- Witness for C20 with `XCP_RES_PGM = 0x10`: for the mask `0x01` a buffer that holds
`0xAA` is returned unchanged as a seed of length 1, and for the mask `0x10` the byte
`seed[1]` keeps its value. -/
theorem XcpGetSeedHook_frame_witness :
    (0x01 &&& 0x10) = 0 ∧
    (XcpGetSeedHook 0x10 0x01 (fun _ => 0xAA)).2 = (fun _ => 0xAA) ∧
    (1 : Nat) ≠ 0 ∧
    (XcpGetSeedHook 0x10 0x10 (fun _ => 0xAA)).2 1 = 0xAA :=
  ⟨by decide, (XcpGetSeedHook_frame 0x10 0x01 (fun _ => 0xAA)).2.1 (by decide),
   by decide, (XcpGetSeedHook_frame 0x10 0x10 (fun _ => 0xAA)).2.2.2 1 (by decide)⟩

/-- Appending a call to a call log adds one to the number of `f_puts` calls when the
call is an `f_puts`. -/
theorem countPuts_append (l1 l2 : List FsCall) :
    countPuts (l1 ++ l2) = countPuts l1 + countPuts l2 := by
  induction l1 with
  | nil => simp [countPuts]
  | cons c cs ih =>
    cases c <;> simp [countPuts, ih]
    omega

/-- Hook calls made one sequence after the other are the calls of the joined
sequence. -/
theorem runFileHooks_append {D : Type} (fs : FatFs D) (cfg : Nat)
    (cs1 cs2 : List FileHookCall) (s : FileState D) :
    runFileHooks fs cfg (cs1 ++ cs2) s = runFileHooks fs cfg cs2 (runFileHooks fs cfg cs1 s) := by
  induction cs1 generalizing s with
  | nil => rfl
  | cons c cs ih => simp [runFileHooks, ih]

/-- A sequence of log hook calls run as hook calls is `logAll`. -/
theorem runFileHooks_logs {D : Type} (fs : FatFs D) (cfg : Nat) (texts : List String)
    (s : FileState D) :
    runFileHooks fs cfg (texts.map FileHookCall.log) s = logAll fs texts s := by
  induction texts generalizing s with
  | nil => rfl
  | cons t ts ih => simp [runFileHooks, runFileHook, logAll, ih]

/-- The log hook keeps `closesDue`: it closes the log file only when it clears the
usable flag. -/
theorem closesDue_log {D : Type} (fs : FatFs D) (text : String) (s : FileState D) :
    closesDue (FileFirmwareUpdateLogHook fs text s) = closesDue s := by
  unfold closesDue FileFirmwareUpdateLogHook
  by_cases hc : s.logfile.canUse = BLT_TRUE
  · by_cases hf : (fs.f_puts s.disk text).1 < 0
    · simp [hc, hf, List.count_append]
    · simp [hc, hf, List.count_append]
  · simp [hc]

/-- A sequence of log hook calls keeps `closesDue`. -/
theorem closesDue_logAll {D : Type} (fs : FatFs D) (texts : List String)
    (s : FileState D) :
    closesDue (logAll fs texts s) = closesDue s := by
  induction texts generalizing s with
  | nil => rfl
  | cons t ts ih => simp [logAll, ih, closesDue_log]

/-- C18: with logging compiled in, in every session that consists of
`FileFirmwareUpdateStartedHook`, any number of `FileFirmwareUpdateLogHook` calls with
any write outcomes, and then `FileFirmwareUpdateCompletedHook` or
`FileFirmwareUpdateErrorHook`, the number of `f_close` calls made is one if the
`f_open` of the log file succeeded and zero if it failed. -/
theorem session_closes_log_once {D : Type} (fs : FatFs D)
    (BOOT_FILE_LOGGING_ENABLE : Nat) (hlog : 0 < BOOT_FILE_LOGGING_ENABLE)
    (s : FileState D) (texts : List String) (error_code : Nat) :
    (runFileHooks fs BOOT_FILE_LOGGING_ENABLE
        ([FileHookCall.started] ++ texts.map FileHookCall.log ++ [FileHookCall.completed])
        s).calls.count FsCall.f_close =
      s.calls.count FsCall.f_close +
        (if (fs.f_open s.disk "/bootlog.txt" (fs.FA_CREATE_ALWAYS ||| fs.FA_WRITE)).1
            = FRESULT.FR_OK then 1 else 0) ∧
    (runFileHooks fs BOOT_FILE_LOGGING_ENABLE
        ([FileHookCall.started] ++ texts.map FileHookCall.log ++
          [FileHookCall.error error_code]) s).calls.count FsCall.f_close =
      s.calls.count FsCall.f_close +
        (if (fs.f_open s.disk "/bootlog.txt" (fs.FA_CREATE_ALWAYS ||| fs.FA_WRITE)).1
            = FRESULT.FR_OK then 1 else 0) := by
  have hstart : closesDue (FileFirmwareUpdateStartedHook fs BOOT_FILE_LOGGING_ENABLE s) =
      s.calls.count FsCall.f_close +
        (if (fs.f_open s.disk "/bootlog.txt" (fs.FA_CREATE_ALWAYS ||| fs.FA_WRITE)).1
            = FRESULT.FR_OK then 1 else 0) := by
    unfold closesDue FileFirmwareUpdateStartedHook
    by_cases ho : (fs.f_open s.disk "/bootlog.txt" (fs.FA_CREATE_ALWAYS ||| fs.FA_WRITE)).1
        = FRESULT.FR_OK <;> simp [hlog, ho, List.count_append]
  have hcompleted : ∀ s1 : FileState D,
      (FileFirmwareUpdateCompletedHook fs BOOT_FILE_LOGGING_ENABLE s1).calls.count
        FsCall.f_close = closesDue s1 := by
    intro s1
    unfold closesDue FileFirmwareUpdateCompletedHook
    by_cases hc : s1.logfile.canUse = BLT_TRUE <;> simp [hlog, hc, List.count_append]
  have herror : ∀ s1 : FileState D,
      (FileFirmwareUpdateErrorHook fs BOOT_FILE_LOGGING_ENABLE error_code s1).calls.count
        FsCall.f_close = closesDue s1 := by
    intro s1
    unfold closesDue FileFirmwareUpdateErrorHook
    by_cases hc : s1.logfile.canUse = BLT_TRUE <;> simp [hlog, hc, List.count_append]
  constructor
  · rw [runFileHooks_append, runFileHooks_append, runFileHooks_logs]
    simp only [runFileHooks, runFileHook]
    rw [hcompleted, closesDue_logAll, hstart]
  · rw [runFileHooks_append, runFileHooks_append, runFileHooks_logs]
    simp only [runFileHooks, runFileHook]
    rw [herror, closesDue_logAll, hstart]

/-- Witness for C18: two sessions on a healthy medium and one on a write-protected
medium; the first two make one `f_close` call, the last makes none. -/
theorem session_closes_log_once_witness :
    0 < blt_conf.BOOT_FILE_LOGGING_ENABLE ∧
    (runFileHooks ramFatFs blt_conf.BOOT_FILE_LOGGING_ENABLE
        ([FileHookCall.started] ++ ["a", "b"].map FileHookCall.log ++
          [FileHookCall.completed]) ramIdle).calls.count FsCall.f_close = 1 ∧
    (runFileHooks ramFatFs blt_conf.BOOT_FILE_LOGGING_ENABLE
        ([FileHookCall.started] ++ ["a", "b"].map FileHookCall.log ++
          [FileHookCall.error 2]) ramIdle).calls.count FsCall.f_close = 1 ∧
    (runFileHooks ramFatFs blt_conf.BOOT_FILE_LOGGING_ENABLE
        ([FileHookCall.started] ++ ["a", "b"].map FileHookCall.log ++
          [FileHookCall.completed]) ramProtected).calls.count FsCall.f_close = 0 :=
  ⟨by decide,
   (session_closes_log_once ramFatFs blt_conf.BOOT_FILE_LOGGING_ENABLE (by decide)
     ramIdle ["a", "b"] 2).1,
   (session_closes_log_once ramFatFs blt_conf.BOOT_FILE_LOGGING_ENABLE (by decide)
     ramIdle ["a", "b"] 2).2,
   (session_closes_log_once ramFatFs blt_conf.BOOT_FILE_LOGGING_ENABLE (by decide)
     ramProtected ["a", "b"] 2).1⟩

/-- Joining a list of texts onto an initial text one by one gives the initial text
followed by the joined list. -/
theorem foldl_append_join (l : List String) (init : String) :
    l.foldl (fun r t => r ++ t) init = init ++ String.join l := by
  induction l generalizing init with
  | nil => simp [String.join]
  | cons t ts ih =>
    simp only [List.foldl_cons, String.join]
    rw [ih (init ++ t), ih ("" ++ t)]
    simp [String.append_assoc]

/-- The joined list of a text followed by more texts starts with the text. -/
theorem join_cons (t : String) (ts : List String) :
    String.join (t :: ts) = t ++ String.join ts := by
  show ts.foldl (fun r s => r ++ s) ("" ++ t) = t ++ String.join ts
  rw [foldl_append_join]
  simp

/-- A successful write by the log hook on a usable log file: one `f_puts` call, the
storage state after it, and the flag unchanged. -/
theorem FileFirmwareUpdateLogHook_success {D : Type} (fs : FatFs D) (text : String)
    (s : FileState D) (huse : s.logfile.canUse = BLT_TRUE)
    (hok : 0 ≤ (fs.f_puts s.disk text).1) :
    FileFirmwareUpdateLogHook fs text s =
      { s with disk := (fs.f_puts s.disk text).2,
               calls := s.calls ++ [FsCall.f_puts text] } := by
  have hnot : ¬ (fs.f_puts s.disk text).1 < 0 := by omega
  simp [FileFirmwareUpdateLogHook, huse, hnot]

/-- The state after a sequence of log hook calls on a usable log file when every write
succeeds: the texts were written in order, one `f_puts` call each, and the log file is
still marked usable. -/
theorem logAll_success {D : Type} (fs : FatFs D) (texts : List String)
    (s : FileState D) (huse : s.logfile.canUse = BLT_TRUE)
    (hok : writesSucceed fs texts s.disk = true) :
    (logAll fs texts s).calls = s.calls ++ texts.map FsCall.f_puts ∧
    (logAll fs texts s).logfile.canUse = BLT_TRUE ∧
    (∀ content : D → String,
      (∀ (d : D) (t : String), 0 ≤ (fs.f_puts d t).1 →
        content (fs.f_puts d t).2 = content d ++ t) →
      content (logAll fs texts s).disk = content s.disk ++ String.join texts) := by
  induction texts generalizing s with
  | nil =>
    refine ⟨by simp [logAll], by simpa [logAll] using huse, ?_⟩
    intro content _
    simp [logAll, String.join]
  | cons t ts ih =>
    simp only [writesSucceed, Bool.and_eq_true, decide_eq_true_eq] at hok
    have hstep := FileFirmwareUpdateLogHook_success fs t s huse hok.1
    have hnext := ih (FileFirmwareUpdateLogHook fs t s) (by rw [hstep]; exact huse)
      (by rw [hstep]; exact hok.2)
    simp only [logAll]
    refine ⟨?_, hnext.2.1, ?_⟩
    · rw [hnext.1, hstep]
      simp
    · intro content happend
      rw [hnext.2.2 content happend, hstep, join_cons]
      simp only
      rw [happend s.disk t hok.1, String.append_assoc]

/-- C14: when the log file is marked usable `FileFirmwareUpdateLogHook` makes exactly
one `f_puts` call with the text, followed by an `f_close` only if the write failed, and
leaves the log file marked usable if the write succeeded; when the log file is not
marked usable the hook changes nothing and makes no call. Over a sequence of log hook
calls on a usable log file in which every write succeeds, the `f_puts` calls carry the
texts in call order, and for a file whose content grows by each text written with
success the content afterwards is the content before followed by the texts in call
order. -/
theorem FileFirmwareUpdateLogHook_writes_once {D : Type} (fs : FatFs D)
    (s : FileState D) (text : String) (texts : List String) :
    (s.logfile.canUse = BLT_TRUE →
      (FileFirmwareUpdateLogHook fs text s).calls =
        s.calls ++ [FsCall.f_puts text] ++
          (if (fs.f_puts s.disk text).1 < 0 then [FsCall.f_close] else []) ∧
      countPuts (FileFirmwareUpdateLogHook fs text s).calls = countPuts s.calls + 1 ∧
      (0 ≤ (fs.f_puts s.disk text).1 →
        (FileFirmwareUpdateLogHook fs text s).logfile.canUse = BLT_TRUE ∧
        (FileFirmwareUpdateLogHook fs text s).disk = (fs.f_puts s.disk text).2)) ∧
    (s.logfile.canUse ≠ BLT_TRUE → FileFirmwareUpdateLogHook fs text s = s) ∧
    (s.logfile.canUse = BLT_TRUE → writesSucceed fs texts s.disk = true →
      (logAll fs texts s).calls = s.calls ++ texts.map FsCall.f_puts ∧
      (logAll fs texts s).logfile.canUse = BLT_TRUE ∧
      (∀ content : D → String,
        (∀ (d : D) (t : String), 0 ≤ (fs.f_puts d t).1 →
          content (fs.f_puts d t).2 = content d ++ t) →
        content (logAll fs texts s).disk = content s.disk ++ String.join texts)) := by
  refine ⟨?_, FileFirmwareUpdateLogHook_unusable fs text s, logAll_success fs texts s⟩
  intro huse
  by_cases hf : (fs.f_puts s.disk text).1 < 0
  · refine ⟨?_, ?_, ?_⟩
    · simp [FileFirmwareUpdateLogHook, huse, hf]
    · simp [FileFirmwareUpdateLogHook, huse, hf, countPuts_append, countPuts]
    · intro hok
      omega
  · have hok : 0 ≤ (fs.f_puts s.disk text).1 := by omega
    have hstep := FileFirmwareUpdateLogHook_success fs text s huse hok
    refine ⟨?_, ?_, ?_⟩
    · rw [hstep]
      simp [hf]
    · rw [hstep]
      simp [countPuts_append, countPuts]
    · intro _
      rw [hstep]
      exact ⟨huse, rfl⟩

/-- On a `RamDisk` a successful `f_puts` adds the text at the end of the log. -/
theorem ramFatFs_puts_appends (d : RamDisk) (t : String)
    (h : 0 ≤ (ramFatFs.f_puts d t).1) :
    String.join (ramFatFs.f_puts d t).2.logText = String.join d.logText ++ t := by
  obtain ⟨fw, lo, lt, mf⟩ := d
  cases lo <;> cases mf <;> simp [ramFatFs] at h ⊢
  simp [String.join, List.foldl_append]

/-- Witness for C14: on `ramReady` the texts "a" and "b" are written in this order and
the log then reads "ab"; on a state whose log file is not marked usable the hook does
nothing. -/
theorem FileFirmwareUpdateLogHook_writes_once_witness :
    ramReady.logfile.canUse = BLT_TRUE ∧
    writesSucceed ramFatFs ["a", "b"] ramReady.disk = true ∧
    (logAll ramFatFs ["a", "b"] ramReady).calls =
      ramReady.calls ++ ["a", "b"].map FsCall.f_puts ∧
    String.join (logAll ramFatFs ["a", "b"] ramReady).disk.logText =
      String.join ramReady.disk.logText ++ String.join ["a", "b"] ∧
    ramIdle.logfile.canUse ≠ BLT_TRUE ∧
    FileFirmwareUpdateLogHook ramFatFs "a" ramIdle = ramIdle :=
  ⟨rfl, by decide,
   ((FileFirmwareUpdateLogHook_writes_once ramFatFs ramReady "a" ["a", "b"]).2.2 rfl
     (by decide)).1,
   ((FileFirmwareUpdateLogHook_writes_once ramFatFs ramReady "a" ["a", "b"]).2.2 rfl
     (by decide)).2.2 (fun d => String.join d.logText) ramFatFs_puts_appends,
   by decide,
   (FileFirmwareUpdateLogHook_writes_once ramFatFs ramIdle "a" []).2.1 (by decide)⟩

/-- C15 (as stated, refuted): on a write-protected medium that holds the firmware file,
a session of `FileFirmwareUpdateStartedHook` and `FileFirmwareUpdateCompletedHook`
calls `f_unlink` on the firmware path, the call fails, and
`FileIsFirmwareUpdateRequestedHook` afterwards still returns `BLT_TRUE` although no new
file was placed. -/
theorem completed_then_still_requested :
    (runFileHooks ramFatFs blt_conf.BOOT_FILE_LOGGING_ENABLE
      [FileHookCall.started, FileHookCall.completed] ramProtected).calls =
      [FsCall.f_open "/bootlog.txt" 0x0A, FsCall.f_unlink firmwareFilename] ∧
    (ramFatFs.f_unlink ramProtected.disk firmwareFilename).1 ≠ FRESULT.FR_OK ∧
    FileIsFirmwareUpdateRequestedHook ramFatFs
      (runFileHooks ramFatFs blt_conf.BOOT_FILE_LOGGING_ENABLE
        [FileHookCall.started, FileHookCall.completed] ramProtected) = BLT_TRUE := by
  refine ⟨by decide, by decide, by decide⟩

/-- C15 (amended): with logging compiled in, `FileFirmwareUpdateCompletedHook` passes to
`f_unlink` the path that `FileIsFirmwareUpdateRequestedHook` passes to `f_stat`. When
that `f_unlink` call succeeds, on a file system where `f_stat` fails for a path that was
removed with success, `FileIsFirmwareUpdateRequestedHook` returns `BLT_FALSE` on the
state the hook leaves, for every log-file state. -/
theorem completed_then_not_requested {D : Type} (fs : FatFs D)
    (BOOT_FILE_LOGGING_ENABLE : Nat) (hlog : 0 < BOOT_FILE_LOGGING_ENABLE)
    (s : FileState D)
    (hremoved : ∀ (d : D) (path : String), (fs.f_unlink d path).1 = FRESULT.FR_OK →
      (fs.f_stat (fs.f_unlink d path).2 path).1 ≠ FRESULT.FR_OK)
    (hunlink : (fs.f_unlink
        (if s.logfile.canUse = BLT_TRUE then (fs.f_close s.disk).2 else s.disk)
        firmwareFilename).1 = FRESULT.FR_OK) :
    (FileFirmwareUpdateCompletedHook fs BOOT_FILE_LOGGING_ENABLE s).calls.getLast? =
      some (FsCall.f_unlink firmwareFilename) ∧
    FileIsFirmwareUpdateRequestedHook fs
      (FileFirmwareUpdateCompletedHook fs BOOT_FILE_LOGGING_ENABLE s) = BLT_FALSE := by
  have hdisk : (FileFirmwareUpdateCompletedHook fs BOOT_FILE_LOGGING_ENABLE s).disk =
      (fs.f_unlink (if s.logfile.canUse = BLT_TRUE then (fs.f_close s.disk).2 else s.disk)
        firmwareFilename).2 := by
    unfold FileFirmwareUpdateCompletedHook
    by_cases hc : s.logfile.canUse = BLT_TRUE <;> simp [hlog, hc]
  constructor
  · unfold FileFirmwareUpdateCompletedHook
    simp [hlog]
  · have hstat := hremoved _ firmwareFilename hunlink
    unfold FileIsFirmwareUpdateRequestedHook
    rw [hdisk]
    simp [hstat]

/-- Witness for C15 (amended): on a healthy medium the firmware file is requested
before the hook and no longer after it. -/
theorem completed_then_not_requested_witness :
    0 < blt_conf.BOOT_FILE_LOGGING_ENABLE ∧
    FileIsFirmwareUpdateRequestedHook ramFatFs ramReady = BLT_TRUE ∧
    FileIsFirmwareUpdateRequestedHook ramFatFs
      (FileFirmwareUpdateCompletedHook ramFatFs blt_conf.BOOT_FILE_LOGGING_ENABLE
        ramReady) = BLT_FALSE :=
  ⟨by decide, by decide,
   (completed_then_not_requested ramFatFs blt_conf.BOOT_FILE_LOGGING_ENABLE (by decide)
     ramReady
     (by
      intro d path h
      obtain ⟨fw, lo, lt, mf⟩ := d
      cases mf
      · by_cases hp : path = firmwareFilename
        · cases fw <;> simp [ramFatFs, hp] at h ⊢
        · simp [ramFatFs, hp] at h
      · simp [ramFatFs] at h)
     (by decide)).2⟩

/-- The log hook keeps the property that a log file marked usable is open, on a file
system where a successful `f_puts` leaves an open file open. -/
theorem usable_open_log {D : Type} (fs : FatFs D) (isOpen : D → Bool)
    (hputs : ∀ (d : D) (t : String), isOpen d = true → 0 ≤ (fs.f_puts d t).1 →
      isOpen (fs.f_puts d t).2 = true)
    (text : String) (s : FileState D)
    (hinv : s.logfile.canUse = BLT_TRUE → isOpen s.disk = true) :
    (FileFirmwareUpdateLogHook fs text s).logfile.canUse = BLT_TRUE →
      isOpen (FileFirmwareUpdateLogHook fs text s).disk = true := by
  by_cases hc : s.logfile.canUse = BLT_TRUE
  · by_cases hf : (fs.f_puts s.disk text).1 < 0
    · simp [FileFirmwareUpdateLogHook, hc, hf]
    · have hok : 0 ≤ (fs.f_puts s.disk text).1 := by omega
      intro _
      simpa [FileFirmwareUpdateLogHook, hc, hf] using hputs s.disk text (hinv hc) hok
  · rw [FileFirmwareUpdateLogHook_unusable fs text s hc]
    exact hinv

/-- A sequence of log hook calls keeps the property that a log file marked usable is
open. -/
theorem usable_open_logAll {D : Type} (fs : FatFs D) (isOpen : D → Bool)
    (hputs : ∀ (d : D) (t : String), isOpen d = true → 0 ≤ (fs.f_puts d t).1 →
      isOpen (fs.f_puts d t).2 = true)
    (texts : List String) (s : FileState D)
    (hinv : s.logfile.canUse = BLT_TRUE → isOpen s.disk = true) :
    (logAll fs texts s).logfile.canUse = BLT_TRUE →
      isOpen (logAll fs texts s).disk = true := by
  induction texts generalizing s with
  | nil => exact hinv
  | cons t ts ih =>
    simp only [logAll]
    exact ih _ (usable_open_log fs isOpen hputs t s hinv)

/-- C17 (as stated, refuted): on a healthy medium, after `FileFirmwareUpdateStartedHook`
and `FileFirmwareUpdateErrorHook` the log file is still marked usable although its
handle was closed, and a following `FileFirmwareUpdateLogHook` call attempts an
`f_puts` on the closed handle; the same holds after
`FileFirmwareUpdateCompletedHook`. -/
theorem usable_flag_after_close :
    (runFileHooks ramFatFs blt_conf.BOOT_FILE_LOGGING_ENABLE
      [FileHookCall.started, FileHookCall.error 1] ramIdle).logfile.canUse = BLT_TRUE ∧
    (runFileHooks ramFatFs blt_conf.BOOT_FILE_LOGGING_ENABLE
      [FileHookCall.started, FileHookCall.error 1] ramIdle).disk.logOpen = false ∧
    (runFileHooks ramFatFs blt_conf.BOOT_FILE_LOGGING_ENABLE
      [FileHookCall.started, FileHookCall.error 1, FileHookCall.log "x"] ramIdle).calls =
      [FsCall.f_open "/bootlog.txt" 0x0A, FsCall.f_close, FsCall.f_puts "x",
       FsCall.f_close] ∧
    (runFileHooks ramFatFs blt_conf.BOOT_FILE_LOGGING_ENABLE
      [FileHookCall.started, FileHookCall.completed] ramIdle).logfile.canUse = BLT_TRUE ∧
    (runFileHooks ramFatFs blt_conf.BOOT_FILE_LOGGING_ENABLE
      [FileHookCall.started, FileHookCall.completed] ramIdle).disk.logOpen = false := by
  refine ⟨by decide, by decide, by decide, by decide, by decide⟩

/-- C17 (amended): with logging compiled in, on a file system where a successful
`f_open` leaves the log file open and a successful `f_puts` leaves an open file open,
the following holds inside a session, whatever hook calls were made before it: after
`FileFirmwareUpdateStartedHook` and any number of `FileFirmwareUpdateLogHook` calls, a
log file marked usable is open, so a further log hook call makes its `f_puts` only on
an open handle. `FileFirmwareUpdateCompletedHook` and `FileFirmwareUpdateErrorHook`
leave the flag as it is when they close the file. -/
theorem usable_implies_open_in_session {D : Type} (fs : FatFs D)
    (BOOT_FILE_LOGGING_ENABLE : Nat) (hlog : 0 < BOOT_FILE_LOGGING_ENABLE)
    (isOpen : D → Bool)
    (hopen : ∀ (d : D) (path : String) (mode : Nat),
      (fs.f_open d path mode).1 = FRESULT.FR_OK → isOpen (fs.f_open d path mode).2 = true)
    (hputs : ∀ (d : D) (t : String), isOpen d = true → 0 ≤ (fs.f_puts d t).1 →
      isOpen (fs.f_puts d t).2 = true)
    (earlier : List FileHookCall) (s : FileState D) (texts : List String)
    (text : String) (error_code : Nat) :
    ((runFileHooks fs BOOT_FILE_LOGGING_ENABLE
        (earlier ++ [FileHookCall.started] ++ texts.map FileHookCall.log)
        s).logfile.canUse = BLT_TRUE →
      isOpen (runFileHooks fs BOOT_FILE_LOGGING_ENABLE
        (earlier ++ [FileHookCall.started] ++ texts.map FileHookCall.log)
        s).disk = true) ∧
    (countPuts (runFileHooks fs BOOT_FILE_LOGGING_ENABLE
        (earlier ++ [FileHookCall.started] ++ texts.map FileHookCall.log ++
          [FileHookCall.log text]) s).calls ≠
      countPuts (runFileHooks fs BOOT_FILE_LOGGING_ENABLE
        (earlier ++ [FileHookCall.started] ++ texts.map FileHookCall.log) s).calls →
      isOpen (runFileHooks fs BOOT_FILE_LOGGING_ENABLE
        (earlier ++ [FileHookCall.started] ++ texts.map FileHookCall.log)
        s).disk = true) ∧
    (FileFirmwareUpdateCompletedHook fs BOOT_FILE_LOGGING_ENABLE s).logfile.canUse =
      s.logfile.canUse ∧
    (FileFirmwareUpdateErrorHook fs BOOT_FILE_LOGGING_ENABLE error_code s).logfile.canUse =
      s.logfile.canUse := by
  have hstart : ∀ s0 : FileState D,
      (FileFirmwareUpdateStartedHook fs BOOT_FILE_LOGGING_ENABLE s0).logfile.canUse
        = BLT_TRUE →
      isOpen (FileFirmwareUpdateStartedHook fs BOOT_FILE_LOGGING_ENABLE s0).disk = true := by
    intro s0
    unfold FileFirmwareUpdateStartedHook
    by_cases ho : (fs.f_open s0.disk "/bootlog.txt"
        (fs.FA_CREATE_ALWAYS ||| fs.FA_WRITE)).1 = FRESULT.FR_OK
    · intro _
      simpa [hlog, ho] using hopen s0.disk "/bootlog.txt" _ ho
    · simp [hlog, ho]
  have hrun : runFileHooks fs BOOT_FILE_LOGGING_ENABLE
      (earlier ++ [FileHookCall.started] ++ texts.map FileHookCall.log) s =
      logAll fs texts (FileFirmwareUpdateStartedHook fs BOOT_FILE_LOGGING_ENABLE
        (runFileHooks fs BOOT_FILE_LOGGING_ENABLE earlier s)) := by
    rw [runFileHooks_append, runFileHooks_append, runFileHooks_logs]
    rfl
  have hinv := usable_open_logAll fs isOpen hputs texts _
    (hstart (runFileHooks fs BOOT_FILE_LOGGING_ENABLE earlier s))
  refine ⟨?_, ?_, ?_, ?_⟩
  · rw [hrun]
    exact hinv
  · rw [runFileHooks_append, hrun]
    simp only [runFileHooks, runFileHook]
    intro hne
    apply hinv
    by_contra hc
    exact hne (by rw [FileFirmwareUpdateLogHook_unusable fs text _ hc])
  · unfold FileFirmwareUpdateCompletedHook
    by_cases hc : s.logfile.canUse = BLT_TRUE <;> simp [hlog, hc]
  · unfold FileFirmwareUpdateErrorHook
    by_cases hc : s.logfile.canUse = BLT_TRUE <;> simp [hlog, hc]

/-- Witness for C17 (amended): after an earlier session that ended with the error hook,
a new session on a healthy medium with two texts written has the log file marked usable
and open. -/
theorem usable_implies_open_in_session_witness :
    0 < blt_conf.BOOT_FILE_LOGGING_ENABLE ∧
    (runFileHooks ramFatFs blt_conf.BOOT_FILE_LOGGING_ENABLE
      ([FileHookCall.started, FileHookCall.error 1] ++ [FileHookCall.started] ++
        ["a", "b"].map FileHookCall.log) ramIdle).logfile.canUse = BLT_TRUE ∧
    (runFileHooks ramFatFs blt_conf.BOOT_FILE_LOGGING_ENABLE
      ([FileHookCall.started, FileHookCall.error 1] ++ [FileHookCall.started] ++
        ["a", "b"].map FileHookCall.log) ramIdle).disk.logOpen = true :=
  ⟨by decide, by decide,
   (usable_implies_open_in_session ramFatFs blt_conf.BOOT_FILE_LOGGING_ENABLE (by decide)
     (fun d => d.logOpen)
     (by
      intro d path mode h
      obtain ⟨fw, lo, lt, mf⟩ := d
      cases mf <;> simp [ramFatFs] at h ⊢)
     (by
      intro d t ho h
      obtain ⟨fw, lo, lt, mf⟩ := d
      cases lo <;> cases mf <;> simp [ramFatFs] at ho h ⊢)
     [FileHookCall.started, FileHookCall.error 1] ramIdle ["a", "b"] "c" 1).1
     (by decide)⟩

/-- C21: the result of `XcpVerifyKeyHook` is determined by the resource and the first
key byte. Two calls with the same resource and the same `key[0]` return the same value,
whatever the two declared lengths are, 0 and lengths above 1 included, and whatever the
other key bytes are. -/
theorem XcpVerifyKeyHook_first_byte_only (XCP_RES_PGM resource : Nat)
    (key key2 : Buffer) (len len2 : Nat) (hfirst : key 0 = key2 0) :
    XcpVerifyKeyHook XCP_RES_PGM resource key len =
      XcpVerifyKeyHook XCP_RES_PGM resource key2 len2 := by
  unfold XcpVerifyKeyHook
  simp only [hfirst]

/-- Witness for C21 with `XCP_RES_PGM = 0x10`: the key `54 01 02 ...` with declared
length 0 and the key `54 54 54 ...` with declared length 4 are both accepted. -/
theorem XcpVerifyKeyHook_first_byte_only_witness :
    (fun i : Nat => if i = 0 then 0x54 else i) 0 = (fun _ : Nat => 0x54) 0 ∧
    XcpVerifyKeyHook 0x10 0x10 (fun i => if i = 0 then 0x54 else i) 0 =
      XcpVerifyKeyHook 0x10 0x10 (fun _ => 0x54) 4 ∧
    XcpVerifyKeyHook 0x10 0x10 (fun _ => 0x54) 4 = 1 :=
  ⟨rfl,
   XcpVerifyKeyHook_first_byte_only 0x10 0x10 (fun i => if i = 0 then 0x54 else i)
     (fun _ => 0x54) 0 4 rfl,
   rfl⟩

/-- C22: the compile-time assertion of `InfoTableCheckHook` holds for the shipped
configuration. The configured `BOOT_INFO_TABLE_LEN` is 12, the size of
`struct firmwareInfoTable` with its three 32-bit fields is `3 * 4 = 12` bytes, and 12
is the only configured length for which the assertion holds. -/
theorem BOOT_INFO_TABLE_LEN_assertion :
    InfoTableCheckHook_ASSERT_CT blt_conf.BOOT_INFO_TABLE_LEN = true ∧
    blt_conf.BOOT_INFO_TABLE_LEN = 12 ∧
    sizeofStruct firmwareInfoTable_members = 3 * 4 ∧
    blt_conf.BOOT_INFO_TABLE_LEN = sizeofStruct firmwareInfoTable_members ∧
    (∀ n : Nat, InfoTableCheckHook_ASSERT_CT n = true ↔ n = 12) := by
  have hsize : sizeofStruct firmwareInfoTable_members = 12 := by decide
  refine ⟨by decide, rfl, by decide, by decide, ?_⟩
  intro n
  simp [InfoTableCheckHook_ASSERT_CT, hsize]

end Hooks
